import Mathlib

/-!
Verification of the Content Analytics Scoring Engine
(Content-Creation-Agency repository) against its specification.

The numeric core of the engine is shallowly embedded here.  Exact values
are modelled as rationals (`ℚ`); IEEE-754 special results that the Python
code can produce through NumPy/pandas true division (`inf`, `-inf`, `nan`)
are modelled explicitly with the `NVal` type, since several spec sentences
are precisely about zero-denominator behaviour.  External library
capabilities (TextBlob tokenisation/polarity, transformer labels, NLTK
POS tagging) are taken as function parameters, following the spec's
"polymorphic capability interfaces" design note (§9).
-/

/-- A NumPy/pandas floating-point result: a finite (exact, rational) value,
a signed infinity, or NaN.  NumPy true division never raises; dividing by
zero yields `±inf` for a nonzero numerator and `nan` for `0/0`. -/
inductive NVal where
  | fin : ℚ → NVal
  | pinf : NVal
  | ninf : NVal
  | nan : NVal
deriving DecidableEq, Repr

namespace NVal

/-- NumPy true division `a / b` on exact operands. -/
def npDiv (a b : ℚ) : NVal :=
  if b = 0 then
    (if 0 < a then .pinf else if a < 0 then .ninf else .nan)
  else .fin (a / b)

/-- Multiply by the positive literal 100 (used for percentage scaling);
infinities and NaN are absorbing, matching IEEE arithmetic. -/
def mul100 : NVal → NVal
  | .fin q => .fin (q * 100)
  | .pinf => .pinf
  | .ninf => .ninf
  | .nan => .nan

/-- Whether the value is finite. -/
def isFin : NVal → Bool
  | .fin _ => true
  | _ => false

end NVal

namespace TrendTool

/-!
Embedding of `trend_analyzer.py` (`TrendAnalyzer`): the statistical helpers
`_calculate_momentum`, `_calculate_trend_direction`, `_predict_trend`, and
the `volatility` expression from `run` (line 70,
`float(np.std(values) / np.mean(values))`).

`scipy.stats.linregress` on `x = arange(n)` is embedded by its defining
formulas: centred second moments `ssxm`, `ssym` and mixed moment `ssxym`,
slope `ssxym / ssxm`, intercept `ȳ − slope·x̄`.  scipy compares
`abs(r_value) < 0.3`; since `r² = ssxym² / (ssxm·ssym)` (with scipy's
convention `r = 0` when the denominator is zero), that comparison is
rendered exactly as `r² < 9/100`.  `linregress` raises `ValueError` only
for an empty input (its identical-x check requires `len(x) > 1`, so a
single sample is classified, with NaN slope); the empty path is
`Except.error`.
-/

/-- Sum of `f` over the index list `[0, …, n-1]` (NumPy `arange`-style). -/
def idxSum (n : ℕ) (f : ℕ → ℚ) : ℚ :=
  ((List.range n).map f).sum

/-- Mean of the regression abscissae `0, …, n-1`. -/
def xbar (n : ℕ) : ℚ := idxSum n (fun i => (i : ℚ)) / n

/-- `np.mean` of the sample list (used with nonempty input). -/
def ybar (l : List ℚ) : ℚ := l.sum / l.length

/-- Centred second moment of the abscissae, `Σ (i − x̄)²`. -/
def ssxm (n : ℕ) : ℚ := idxSum n (fun i => ((i : ℚ) - xbar n) ^ 2)

/-- Mixed centred moment `Σ (i − x̄)(yᵢ − ȳ)`. -/
def ssxym (l : List ℚ) : ℚ :=
  idxSum l.length (fun i => ((i : ℚ) - xbar l.length) * (l.getD i 0 - ybar l))

/-- Centred second moment of the samples, `Σ (yᵢ − ȳ)²`. -/
def ssym (l : List ℚ) : ℚ :=
  idxSum l.length (fun i => (l.getD i 0 - ybar l) ^ 2)

/-- Fitted least-squares slope against the sample index. -/
def slope (l : List ℚ) : ℚ := ssxym l / ssxm l.length

/-- Fitted least-squares intercept. -/
def intercept (l : List ℚ) : ℚ := ybar l - slope l * xbar l.length

/-- Square of scipy's correlation coefficient `r_value`, with scipy's
convention that `r = 0` when `ssxm·ssym = 0` (constant data). -/
def rsqVal (l : List ℚ) : ℚ :=
  if ssxm l.length * ssym l = 0 then 0
  else ssxym l ^ 2 / (ssxm l.length * ssym l)

/-- `TrendAnalyzer._calculate_trend_direction`.  `linregress` raises on an
empty input; its identical-x `ValueError` is guarded by `len(x) > 1`, so a
single sample does *not* raise — scipy then sets `r = 0.0` (zero
second moments) and the code classifies it "stable" (the slope, NaN for a
single sample, is never consulted on that branch). -/
def calculateTrendDirection (l : List ℚ) : Except String String :=
  if l.length = 0 then .error "Inputs must not be empty."
  else
    .ok (if rsqVal l < 9 / 100 then "stable"
         else if 0 < slope l then "increasing" else "decreasing")

/-- `TrendAnalyzer._calculate_momentum`: `0` for fewer than 2 samples, else
`((values[-1] - values[0]) / values[0]) * 100` under NumPy division. -/
def calculateMomentum (l : List ℚ) : NVal :=
  if l.length < 2 then .fin 0
  else .mul100 (NVal.npDiv (l.getLastD 0 - l.headD 0) (l.headD 0))

/-- The fitted slope as the float `ssxym / ssxm` (NumPy division): finite
for ≥ 2 samples (`ssxm > 0`); for a single sample both moments are 0, so
the slope is NaN (`0/0`).  `ssxm ≥ 0` and `ssxm = 0` forces `ssxym = 0`,
so no infinite branch is reachable. -/
def nvSlope (l : List ℚ) : NVal := NVal.npDiv (ssxym l) (ssxm l.length)

/-- The fitted intercept `ȳ − slope·x̄`; NaN propagates from the slope
(the only non-finite value `nvSlope` can take). -/
def nvIntercept (l : List ℚ) : NVal :=
  match nvSlope l with
  | .fin s => .fin (ybar l - s * xbar l.length)
  | _ => .nan

/-- One forecast value `slope * x + intercept`, with NaN propagation. -/
def forecastVal (l : List ℚ) (x : ℚ) : NVal :=
  match nvSlope l, nvIntercept l with
  | .fin s, .fin b => .fin (s * x + b)
  | _, _ => .nan

/-- `TrendAnalyzer._predict_trend`: 30-step linear extrapolation
`slope * x + intercept` for `x = n, …, n+29`, after the same `linregress`
fit.  An empty input raises; a single sample yields 30 NaN values (NaN
slope and intercept), not an error. -/
def predictTrend (l : List ℚ) : Except String (List NVal) :=
  if l.length = 0 then .error "Inputs must not be empty."
  else
    .ok ((List.range 30).map (fun i => forecastVal l ((l.length + i : ℕ) : ℚ)))

/-- Population variance `Σ (yᵢ − ȳ)² / n`, the square of `np.std`;
`np.std l = 0` iff `npVariance l = 0` for nonempty `l`. -/
def npVariance (l : List ℚ) : ℚ := ssym l / l.length

/-- The `volatility` expression of `TrendAnalyzer.run` (line 70):
`np.std(values) / np.mean(values)` under NumPy division, taking the two
already-computed statistics as arguments (`stdv = np.std values ≥ 0`). -/
def volatility (stdv meanv : ℚ) : NVal := NVal.npDiv stdv meanv

end TrendTool

namespace Util

/-!
Shared embedding of `collections.Counter` (insertion-ordered counting,
`most_common` = stable sort by count descending, then truncate) used by
both `content_optimizer.py` and `sentiment_analyzer.py`, and of pandas
`value_counts` (descending count sort).
-/

/-- Add one occurrence of `w` to an insertion-ordered count list. -/
def bump : List (String × ℕ) → String → List (String × ℕ)
  | [], w => [(w, 1)]
  | (x, n) :: rest, w =>
    if x == w then (x, n + 1) :: rest else (x, n) :: bump rest w

/-- Occurrence counts in first-occurrence order (a Python `Counter`). -/
def countOcc (l : List String) : List (String × ℕ) := l.foldl bump []

/-- Stable insertion for a descending-by-count sort: an element moves past
`y` only when `y`'s count is strictly larger, so ties keep their original
relative order (as Python's stable `sorted`/`heapq.nlargest` do). -/
def insertByCount (x : String × ℕ) : List (String × ℕ) → List (String × ℕ)
  | [] => [x]
  | y :: ys => if x.2 < y.2 then y :: insertByCount x ys else x :: y :: ys

/-- Stable sort by count, descending. -/
def sortDesc : List (String × ℕ) → List (String × ℕ)
  | [] => []
  | x :: xs => insertByCount x (sortDesc xs)

/-- `Counter(l).most_common(k)`. -/
def mostCommon (k : ℕ) (l : List String) : List (String × ℕ) :=
  (sortDesc (countOcc l)).take k

end Util

namespace ChannelTool

/-!
Embedding of the engagement-metrics computation of `channel_analyzer.py`
(`ChannelAnalyzer.run`, lines 89-110): the pandas expressions
`engagement_rate = ((likes + comments) / views * 100).round(2)`,
`avg_engagement_rate = df['engagement_rate'].mean()` (which skips NaN but
propagates infinities), and `best_performing_video` via `idxmax` (index of
the first occurrence of the maximum).
-/

/-- A fetched video's counters (all non-negative integers). -/
structure VideoRecord where
  views : ℕ
  likes : ℕ
  comments : ℕ
deriving DecidableEq, Repr

/-- Round half-to-even to an integer (NumPy/pandas rounding mode). -/
def roundHalfEven (q : ℚ) : ℤ :=
  let f := ⌊q⌋
  let r := q - (f : ℚ)
  if r < 1/2 then f
  else if 1/2 < r then f + 1
  else if f % 2 = 0 then f else f + 1

/-- pandas `.round(2)`: round half-to-even at two decimals. -/
def round2 (q : ℚ) : ℚ := ((roundHalfEven (q * 100) : ℤ) : ℚ) / 100

/-- `.round(2)` lifted to float results (NaN/±inf round to themselves). -/
def nvRound2 : NVal → NVal
  | .fin q => .fin (round2 q)
  | v => v

/-- The `engagement_rate` column:
`((likes + comments) / views * 100).round(2)` under pandas division, so a
zero-view record yields `+inf` (positive numerator) or `NaN` (`0/0`). -/
def engagementRate (r : VideoRecord) : NVal :=
  nvRound2 (NVal.mul100 (NVal.npDiv ((r.likes + r.comments : ℕ) : ℚ) ((r.views : ℕ) : ℚ)))

/-- Not-NaN test. -/
def notNan : NVal → Bool
  | .nan => false
  | _ => true

/-- Drop NaN entries (what pandas `mean(skipna=True)` ignores). -/
def keepNotNan (vals : List NVal) : List NVal := vals.filter notNan

/-- Whether `+inf` occurs. -/
def hasPinf (vals : List NVal) : Bool := vals.any (fun v => v == NVal.pinf)

/-- Whether `-inf` occurs. -/
def hasNinf (vals : List NVal) : Bool := vals.any (fun v => v == NVal.ninf)

/-- Finite payload (only used below on lists with no special values). -/
def toQ : NVal → ℚ
  | .fin q => q
  | _ => 0

/-- pandas `Series.mean()`: NaN entries are skipped, an empty (post-skip)
series gives NaN, and infinities propagate through the IEEE sum. -/
def npMeanSkipNa (vals : List NVal) : NVal :=
  let kept := keepNotNan vals
  if kept.isEmpty then .nan
  else if hasPinf kept then (if hasNinf kept then .nan else .pinf)
  else if hasNinf kept then .ninf
  else .fin ((kept.map toQ).sum / kept.length)

/-- First occurrence of the maximum, returning (index, value);
the running best is replaced only on a strictly larger value. -/
def firstArgmaxAux : List ℕ → Option (ℕ × ℕ)
  | [] => none
  | v :: vs =>
    match firstArgmaxAux vs with
    | none => some (0, v)
    | some (j, m) => if v < m then some (j + 1, m) else some (0, v)

/-- `df['views'].idxmax()`: pandas returns the index label of the first
occurrence of the maximum value. -/
def idxmaxViews (recs : List VideoRecord) : Option ℕ :=
  (firstArgmaxAux (recs.map (fun r => r.views))).map (fun p => p.1)

/-- The `performance_metrics` block of the results dictionary. -/
structure PerformanceMetrics where
  avgViewsPerVideo : ℚ
  avgEngagementRate : NVal
  bestIdx : Option ℕ
  recentCount : ℕ
deriving DecidableEq, Repr

/-- Lines 104-108: statistics are `0`/`None`/`[]` for an empty frame; a
nonempty frame reports the views mean, the engagement-rate mean, the
`idxmax` record, and every record (`recent_videos`, hence the count). -/
def performanceMetrics (recs : List VideoRecord) : PerformanceMetrics :=
  if recs.isEmpty then ⟨0, .fin 0, none, 0⟩
  else
    ⟨((recs.map (fun r => ((r.views : ℕ) : ℚ))).sum) / recs.length,
     npMeanSkipNa (recs.map engagementRate),
     idxmaxViews recs,
     recs.length⟩

end ChannelTool

namespace OptimizerTool

/-!
Embedding of `content_optimizer.py`: `_optimize_seo` (tokenisation by
`re.findall(r'\w+', text.lower())`, top-10 keyword densities, the four
25-point checks with their diagnostic messages), `_calculate_readability`,
`_count_syllables`, and the shape of `run` (the `_optimize_*` helpers
return their inputs unchanged, `_predict_engagement` and
`_generate_recommendations` return empty dictionaries, and the metadata
embeds `datetime.now().isoformat()`).  TextBlob's sentence and word
tokenisers are capability parameters `blobSentences`/`blobWords`.
-/

/-- The `content` dictionary: every slot optional. -/
structure ContentB where
  title : Option String
  description : Option String
  tags : Option (List String)
  script : Option String
deriving DecidableEq, Repr

/-- A `\w` character (ASCII model of the regex class). -/
def isWordChar (c : Char) : Bool := c.isAlphanum || c == '_'

/-- Accumulator pass splitting characters into maximal `\w+` runs. -/
def tokensAux : List Char → List Char → List String
  | [], cur => if cur.isEmpty then [] else [String.mk cur.reverse]
  | c :: cs, cur =>
    if isWordChar c then tokensAux cs (c :: cur)
    else if cur.isEmpty then tokensAux cs []
    else String.mk cur.reverse :: tokensAux cs []

/-- `re.findall(r'\w+', s.lower())` (lower-casing per character). -/
def findWords (s : String) : List String :=
  tokensAux (s.data.map Char.toLower) []

/-- `" ".join([title, description, script])` with absent slots as `""`. -/
def allTextOf (c : ContentB) : String :=
  (c.title.getD "") ++ " " ++ (c.description.getD "") ++ " " ++ (c.script.getD "")

/-- The `keyword_density` map: `count / total_words * 100` over the ten
most common tokens (empty when there are no tokens). -/
def keywordDensityOf (c : ContentB) : List (String × ℚ) :=
  let ws := findWords (allTextOf c)
  (Util.mostCommon 10 ws).map (fun p => (p.1, (p.2 : ℚ) / (ws.length : ℚ) * 100))

/-- Python `max` over a nonempty list (0 as an unused placeholder). -/
def listMaxQ : List ℚ → ℚ
  | [] => 0
  | x :: xs => xs.foldl max x

/-- Title check: 25 points for a length in `[30, 60]`, else one message. -/
def titleCheck : Option String → ℕ × List String
  | none => (0, [])
  | some t =>
    if t.length < 30 then (0, ["Title is too short (< 30 characters)"])
    else if 60 < t.length then (0, ["Title is too long (> 60 characters)"])
    else (25, [])

/-- Description check: 25 points for a length in `[100, 5000]`. -/
def descriptionCheck : Option String → ℕ × List String
  | none => (0, [])
  | some d =>
    if d.length < 100 then (0, ["Description is too short (< 100 characters)"])
    else if 5000 < d.length then (0, ["Description is too long (> 5000 characters)"])
    else (25, [])

/-- Tag check: 25 points for at least five tags. -/
def tagsCheck : Option (List String) → ℕ × List String
  | none => (0, [])
  | some ts =>
    if ts.length < 5 then (0, ["Add more tags (minimum 5 recommended)"])
    else (25, [])

/-- Keyword-density check, skipped when the density map is empty; the code
tests `max_density > 5` then `max_density < 0.5`, so the 25 points go to
the closed interval `[0.5, 5]`. -/
def densityCheck (kd : List (String × ℚ)) : ℕ × List String :=
  if kd.isEmpty then (0, [])
  else
    let m := listMaxQ (kd.map (fun p => p.2))
    if 5 < m then (0, ["Keyword stuffing detected (density > 5%)"])
    else if m < 0.5 then (0, ["Main keyword usage is too low (< 0.5%)"])
    else (25, [])

/-- `'aeiouy'.__contains__` after lowering. -/
def isVowelCh (c : Char) : Bool :=
  c == 'a' || c == 'e' || c == 'i' || c == 'o' || c == 'u' || c == 'y'

/-- The scan of `_count_syllables`: count characters that are vowels not
preceded by a vowel (`prev` is the previous character's vowel flag). -/
def syllAux : List Char → Bool → ℕ
  | [], _ => 0
  | c :: cs, prev =>
    (if isVowelCh c && !prev then 1 else 0) + syllAux cs (isVowelCh c)

/-- `word.endswith("e")`. -/
def endsE (cs : List Char) : Bool := cs.getLastD ' ' == 'e'

/-- `ContentOptimizer._count_syllables` (over `ℤ`, as Python's `count`
variable: decremented for a trailing "e", reset to 1 only when exactly 0). -/
def countSyllables (w : String) : ℤ :=
  let cs := w.data.map Char.toLower
  let base : ℤ := syllAux cs false
  let adjusted := if endsE cs then base - 1 else base
  if adjusted = 0 then 1 else adjusted

/-- Independent rendering of the spec's syllable rule: the number of
maximal contiguous vowel runs, read off positionally (a vowel whose
predecessor is not a vowel starts a run). -/
def vowelRunCount (cs : List Char) : ℕ :=
  (cs.zip (false :: cs.map isVowelCh)).countP (fun p => isVowelCh p.1 && !p.2)

/-- The spec's syllable count: vowel runs, minus one for a trailing "e",
floored at one. -/
def specSyllables (w : String) : ℕ :=
  max (vowelRunCount (w.data.map Char.toLower)
    - (if endsE (w.data.map Char.toLower) then 1 else 0)) 1

/-- `ContentOptimizer._calculate_readability`, as a function of the
TextBlob sentence count and word list: 0 when either count is zero, else
the Flesch Reading Ease value clamped to `[0, 100]`. -/
def calcReadability (sentences : ℕ) (ws : List String) : ℚ :=
  let syllables : ℤ := (ws.map countSyllables).sum
  if sentences = 0 ∨ ws.length = 0 then 0
  else
    min (max (206.835 - 1.015 * ((ws.length : ℚ) / (sentences : ℚ))
              - 84.6 * ((syllables : ℤ) : ℚ) / (ws.length : ℚ)) 0) 100

/-- The `seo_analysis` result of `_optimize_seo`. -/
structure SeoAnalysis where
  keywordDensity : List (String × ℚ)
  readabilityScore : ℚ
  seoScore : ℕ
  improvementAreas : List String
deriving DecidableEq, Repr

/-- `ContentOptimizer._optimize_seo`: the four checks run in source order
(title, description, tags, keyword density); the score is the sum of the
awarded points and the improvement list the concatenation of the
diagnostics. -/
def optimizeSeo (blobSentences : String → ℕ) (blobWords : String → List String)
    (c : ContentB) : SeoAnalysis :=
  let kd := keywordDensityOf c
  let t := titleCheck c.title
  let d := descriptionCheck c.description
  let g := tagsCheck c.tags
  let k := densityCheck kd
  { keywordDensity := kd
    readabilityScore :=
      calcReadability (blobSentences (allTextOf c)) (blobWords (allTextOf c))
    seoScore := t.1 + d.1 + g.1 + k.1
    improvementAreas := t.2 ++ d.2 ++ g.2 ++ k.2 }

/-- The dictionary returned by `ContentOptimizer.run`. -/
structure COResult where
  optimizedTitle : Option String
  optimizedDescription : Option String
  optimizedTags : Option (List String)
  optimizedScript : Option String
  seoAnalysis : SeoAnalysis
  engagementPredictions : List (String × ℚ)
  recommendations : List (String × ℚ)
  metadataTimestamp : String
  metadataPlatform : String
  metadataVersion : String
deriving DecidableEq, Repr

/-- `ContentOptimizer.run`.  The `_optimize_title/description/tags/script`
helpers return their inputs unchanged, `_predict_engagement` and
`_generate_recommendations` return empty dictionaries, and the metadata
block embeds `datetime.now().isoformat()` — modelled by the explicit
`now` argument, the ambient clock at the moment of the call. -/
def runCO (blobSentences : String → ℕ) (blobWords : String → List String)
    (c : ContentB) (platform now : String) : COResult :=
  let seo := optimizeSeo blobSentences blobWords c
  { optimizedTitle := c.title
    optimizedDescription := c.description
    optimizedTags := c.tags
    optimizedScript := c.script
    seoAnalysis := seo
    engagementPredictions := []
    recommendations := []
    metadataTimestamp := now
    metadataPlatform := platform
    metadataVersion := "1.0" }

end OptimizerTool

namespace SentimentTool

/-!
Embedding of the aggregation stage of `sentiment_analyzer.py`
(`SentimentAnalyzer.run`, lines 84-163).  The fetched comments are the
input units; TextBlob polarity/subjectivity, the transformer label, the
NLTK sentence/word tokenisers + POS tagger, and date parsing are
capability parameters.  On an empty unit list, `pd.DataFrame([])` has no
columns, so the very first column access `df['text']` (line 89) raises
`KeyError` — modelled as `Except.error`.
-/

/-- One comment: text, like count, and the `publishedAt` timestamp string
(always present in the fetched data). -/
structure SUnit where
  text : String
  likes : ℕ
  publishedAt : String
deriving DecidableEq, Repr

/-- `pat` is a prefix of `l` (on characters). -/
def startsList : List Char → List Char → Bool
  | [], _ => true
  | _ :: _, [] => false
  | p :: ps, c :: cs => p == c && startsList ps cs

/-- `pat` occurs as a contiguous substring of `l`. -/
def subList (pat : List Char) : List Char → Bool
  | [] => pat.isEmpty
  | c :: cs => startsList pat (c :: cs) || subList pat cs

/-- The regex metacharacters of Python's `re` module. -/
def isRegexMeta (c : Char) : Bool :=
  c == '.' || c == '^' || c == '$' || c == '*' || c == '+' || c == '?' ||
  c == '(' || c == ')' || c == '[' || c == ']' || c == '\x7b' || c == '\x7d' ||
  c == '|' || c == '\\'

/-- Regex match anchored at the start of the text, for the fragment of
`re` patterns built from literal characters and the wildcard '.' (which
matches any single character).  Patterns outside this fragment are not
modelled and are rejected upstream. -/
def regexMatchHere : List Char → List Char → Bool
  | [], _ => true
  | _ :: _, [] => false
  | p :: ps, c :: cs => (p == '.' || p == c) && regexMatchHere ps cs

/-- `re.search` over a text: regex match at any position. -/
def regexSearch (pat : List Char) : List Char → Bool
  | [] => pat.isEmpty
  | c :: cs => regexMatchHere pat (c :: cs) || regexSearch pat cs

/-- `df['text'].str.contains(topic, case=False)` — pandas compiles the
topic as a *regular expression* (`regex=True` is the default) and matches
case-insensitively (modelled by lower-casing both sides, equivalent for
this fragment). -/
def strContains (hay pat : String) : Bool :=
  regexSearch (pat.data.map Char.toLower) (hay.data.map Char.toLower)

/-- The spec's containment rule, stated for comparison with the code's
regex semantics: case-insensitive *literal substring* containment. -/
def substringCI (hay pat : String) : Bool :=
  subList (pat.data.map Char.toLower) (hay.data.map Char.toLower)

/-- Whether a topic pattern lies in the modelled regex fragment: literal
characters and '.' only.  Outside it (e.g. a topic `"**wow**"`, whose
compilation raises `re.error: nothing to repeat`) the attribution loop's
behaviour is not modelled. -/
def patInFragment (pat : List Char) : Bool :=
  pat.all (fun c => !isRegexMeta c || c == '.')

/-- `' '.join(words)`. -/
def joinSpace : List String → String
  | [] => ""
  | [w] => w
  | w :: ws => w ++ " " ++ joinSpace ws

/-- `tag.startswith(('NN', 'JJ'))`: noun or adjective tags. -/
def isTopicTag (tag : String) : Bool := tag.startsWith "NN" || tag.startsWith "JJ"

/-- The grouping loop of lines 120-129: consecutive noun/adjective tokens
accumulate into `cur`; any other tag flushes a nonempty group, and a
trailing group is flushed at sentence end. -/
def groupTopicsAux : List (String × String) → List String → List String
  | [], cur => if cur.isEmpty then [] else [joinSpace cur]
  | (w, tag) :: rest, cur =>
    if isTopicTag tag then groupTopicsAux rest (cur ++ [w])
    else if cur.isEmpty then groupTopicsAux rest []
    else joinSpace cur :: groupTopicsAux rest []

/-- Candidate topic phrases over all tagged sentences. -/
def extractTopics (taggedSentences : List (List (String × String))) : List String :=
  (taggedSentences.map (fun s => groupTopicsAux s [])).flatten

/-- The `topic_sentiment` map (lines 155-161): for each top topic, the
units whose text contains it case-insensitively; an empty match list adds
no entry, otherwise the entry is the mean TextBlob polarity over exactly
the matching units. -/
def topicSentimentMap (pol : String → ℚ) (units : List SUnit)
    (tops : List (String × ℕ)) : List (String × ℚ) :=
  tops.filterMap (fun tp =>
    if (units.filter (fun u => strContains u.text tp.1)).isEmpty then none
    else some (tp.1,
      ((units.filter (fun u => strContains u.text tp.1)).map
          (fun u => pol u.text)).sum /
        ((units.filter (fun u => strContains u.text tp.1)).length : ℚ)))

/-- `groupby(date)['likes'].mean()`: group keys in first-occurrence order
(pandas sorts keys; the ordering of this association list is immaterial
here), mean like count per date. -/
def groupMeanByDate (dateOf : String → String) (units : List SUnit) :
    List (String × ℚ) :=
  let keyed := units.map (fun u => (dateOf u.publishedAt, ((u.likes : ℕ) : ℚ)))
  (Util.countOcc (keyed.map (fun p => p.1))).map (fun p =>
    let grp := keyed.filter (fun q => q.1 == p.1)
    (p.1, (grp.map (fun q => q.2)).sum / (grp.length : ℚ)))

/-- The compiled results dictionary (lines 131-161). -/
structure SAResults where
  averagePolarity : ℚ
  averageSubjectivity : ℚ
  positivePercentage : ℚ
  sentimentDistribution : List (String × ℕ)
  totalComments : ℕ
  totalLikes : ℕ
  avgLikesPerComment : ℚ
  topTopics : List (String × ℕ)
  topicSentiment : List (String × ℚ)
  sentimentTrend : List (String × ℚ)
deriving DecidableEq, Repr

/-- The top-10 topic phrases, `Counter(topics).most_common(10)`. -/
def topTopicsOf (tagOfText : String → List (List (String × String)))
    (units : List SUnit) : List (String × ℕ) :=
  (Util.sortDesc (Util.countOcc
    (extractTopics (((units.map (fun u => u.text)).map tagOfText).flatten)))).take 10

/-- The aggregation stage of `SentimentAnalyzer.run`.  `pol`/`subj` are
TextBlob polarity and subjectivity (applied to the full text), `lab` the
transformer label (applied to the text truncated to 512 characters, as in
`sentiment_analyzer(text[:512])`), `tagOfText` the sentence-split +
POS-tagging pipeline, `dateOf` the date of a timestamp.  An empty unit
list raises `KeyError` at `df['text']`.  Each top topic is compiled as a
regex by `str.contains`; a topic outside the modelled literal-and-dot
fragment is reported as an error (the real code may then raise `re.error`
— e.g. `"**wow**"`: nothing to repeat — or apply regex semantics this
model does not cover; inside the fragment the model is exact). -/
def aggregate (pol subj : String → ℚ) (lab : String → String)
    (tagOfText : String → List (List (String × String)))
    (dateOf : String → String) (units : List SUnit) : Except String SAResults :=
  if units.isEmpty then .error "KeyError: 'text'"
  else if (topTopicsOf tagOfText units).any
      (fun tp => !patInFragment (tp.1.data.map Char.toLower)) then
    .error "re.error or unmodelled regex: topic outside the literal-and-dot fragment"
  else
    let texts := units.map (fun u => u.text)
    let labels := texts.map (fun t => lab (t.take 512))
    let tops := topTopicsOf tagOfText units
    .ok
      { averagePolarity := (texts.map pol).sum / (texts.length : ℚ)
        averageSubjectivity := (texts.map subj).sum / (texts.length : ℚ)
        positivePercentage :=
          ((labels.filter (fun l => l == "POSITIVE")).length : ℚ)
            / (labels.length : ℚ) * 100
        sentimentDistribution := Util.sortDesc (Util.countOcc labels)
        totalComments := units.length
        totalLikes := (units.map (fun u => u.likes)).sum
        avgLikesPerComment :=
          ((units.map (fun u => ((u.likes : ℕ) : ℚ))).sum) / (units.length : ℚ)
        topTopics := tops
        topicSentiment := topicSentimentMap pol units tops
        sentimentTrend := groupMeanByDate dateOf units }

end SentimentTool

namespace TrendTool

/-- The exactly linear series `a, a+b, …, a+(n-1)b`: the test input family
the spec names for the forecast property ("[10,20,30,40,50]"). -/
def linList (a b : ℚ) (n : ℕ) : List ℚ :=
  (List.range n).map (fun i : ℕ => a + b * (i : ℚ))

end TrendTool

/-! ## Theorems -/

namespace TrendTool

theorem idxSum_eq_sum (n : ℕ) (f : ℕ → ℚ) :
    idxSum n f = ∑ i in Finset.range n, f i := by
  induction n with
  | zero => simp [idxSum]
  | succ k ih =>
    rw [idxSum, List.range_succ, List.map_append, List.sum_append,
      Finset.sum_range_succ, ← ih]
    simp [idxSum]

theorem linList_length (a b : ℚ) (n : ℕ) : (linList a b n).length = n := by
  rw [linList, List.length_map, List.length_range]

theorem linList_getD (a b : ℚ) {n i : ℕ} (h : i < n) :
    (linList a b n).getD i 0 = a + b * (i : ℚ) := by
  rw [linList, List.getD_eq_getElem?_getD, List.getElem?_map, List.getElem?_range h]
  rfl

theorem ybar_lin (a b : ℚ) {n : ℕ} (hn : n ≠ 0) :
    ybar (linList a b n) = a + b * xbar n := by
  have hc : ((n : ℚ)) ≠ 0 := Nat.cast_ne_zero.mpr hn
  have hs : (linList a b n).sum = (n : ℚ) * a + b * idxSum n (fun i => (i : ℚ)) := by
    have h1 : (linList a b n).sum = idxSum n (fun i => a + b * (i : ℚ)) := rfl
    rw [h1, idxSum_eq_sum, idxSum_eq_sum, Finset.sum_add_distrib, Finset.sum_const,
      Finset.card_range, ← Finset.mul_sum]
    rw [nsmul_eq_mul]
  rw [ybar, linList_length, hs, xbar]
  field_simp
  ring

theorem ssxm_pos {n : ℕ} (hn : 2 ≤ n) : 0 < ssxm n := by
  rw [ssxm, idxSum_eq_sum]
  apply Finset.sum_pos' (fun i _ => sq_nonneg _)
  by_cases hx : xbar n = 0
  · exact ⟨1, Finset.mem_range.mpr (by omega), by rw [hx]; norm_num⟩
  · exact ⟨0, Finset.mem_range.mpr (by omega), by
      have h : ((0 : ℕ) : ℚ) - xbar n = -xbar n := by push_cast; ring
      rw [h]
      exact pow_two_pos_of_ne_zero (neg_ne_zero.mpr hx)⟩

theorem ssxym_lin (a b : ℚ) {n : ℕ} (hn : n ≠ 0) :
    ssxym (linList a b n) = b * ssxm n := by
  rw [ssxym, linList_length, idxSum_eq_sum, ssxm, idxSum_eq_sum, Finset.mul_sum]
  apply Finset.sum_congr rfl
  intro i hi
  rw [linList_getD a b (Finset.mem_range.mp hi), ybar_lin a b hn]
  ring

theorem ssym_lin (a b : ℚ) {n : ℕ} (hn : n ≠ 0) :
    ssym (linList a b n) = b ^ 2 * ssxm n := by
  rw [ssym, linList_length, idxSum_eq_sum, ssxm, idxSum_eq_sum, Finset.mul_sum]
  apply Finset.sum_congr rfl
  intro i hi
  rw [linList_getD a b (Finset.mem_range.mp hi), ybar_lin a b hn]
  ring

theorem slope_lin (a b : ℚ) {n : ℕ} (hn : 2 ≤ n) : slope (linList a b n) = b := by
  have h0 : n ≠ 0 := by omega
  rw [slope, linList_length, ssxym_lin a b h0, mul_div_assoc,
    div_self (ne_of_gt (ssxm_pos hn)), mul_one]

theorem intercept_lin (a b : ℚ) {n : ℕ} (hn : 2 ≤ n) :
    intercept (linList a b n) = a := by
  have h0 : n ≠ 0 := by omega
  rw [intercept, linList_length, slope_lin a b hn, ybar_lin a b h0]
  ring

theorem rsq_lin (a : ℚ) {b : ℚ} (hb : b ≠ 0) {n : ℕ} (hn : 2 ≤ n) :
    rsqVal (linList a b n) = 1 := by
  have h0 : n ≠ 0 := by omega
  have hx := ne_of_gt (ssxm_pos hn)
  rw [rsqVal, linList_length, ssxym_lin a b h0, ssym_lin a b h0,
    if_neg (mul_ne_zero hx (mul_ne_zero (pow_ne_zero 2 hb) hx))]
  field_simp
  ring

theorem nvSlope_fin {l : List ℚ} (hn : 2 ≤ l.length) :
    nvSlope l = .fin (slope l) := by
  rw [nvSlope, NVal.npDiv, if_neg (ne_of_gt (ssxm_pos hn))]
  rfl

theorem nvIntercept_fin {l : List ℚ} (hn : 2 ≤ l.length) :
    nvIntercept l = .fin (intercept l) := by
  rw [nvIntercept, nvSlope_fin hn]
  rfl

theorem forecastVal_fin {l : List ℚ} (hn : 2 ≤ l.length) (x : ℚ) :
    forecastVal l x = .fin (slope l * x + intercept l) := by
  rw [forecastVal, nvSlope_fin hn, nvIntercept_fin hn]

theorem direction_lin (a : ℚ) {b : ℚ} (hb : 0 < b) {n : ℕ} (hn : 2 ≤ n) :
    calculateTrendDirection (linList a b n) = .ok "increasing" := by
  rw [calculateTrendDirection, linList_length, if_neg (by omega),
    rsq_lin a (ne_of_gt hb) hn, slope_lin a b hn, if_neg (by norm_num), if_pos hb]

theorem predict_lin (a : ℚ) (b : ℚ) {n : ℕ} (hn : 2 ≤ n) :
    predictTrend (linList a b n) =
      .ok ((List.range 30).map (fun i : ℕ => NVal.fin (a + b * ((n + i : ℕ) : ℚ)))) := by
  have hl : 2 ≤ (linList a b n).length := by rw [linList_length]; exact hn
  rw [predictTrend, linList_length, if_neg (by omega)]
  congr 1
  apply List.map_congr_left
  intro i _
  rw [forecastVal_fin hl, slope_lin a b hn, intercept_lin a b hn]
  congr 1
  push_cast
  ring

theorem ybar_replicate {n : ℕ} (hn : n ≠ 0) (c : ℚ) :
    ybar (List.replicate n c) = c := by
  have hc : ((n : ℚ)) ≠ 0 := Nat.cast_ne_zero.mpr hn
  rw [ybar, List.sum_replicate, List.length_replicate, nsmul_eq_mul]
  field_simp

theorem getD_replicate (c : ℚ) {n i : ℕ} (h : i < n) :
    (List.replicate n c).getD i 0 = c := by
  rw [List.getD_eq_getElem?_getD, List.getElem?_replicate, if_pos h]
  rfl

theorem ssym_replicate {n : ℕ} (hn : n ≠ 0) (c : ℚ) :
    ssym (List.replicate n c) = 0 := by
  rw [ssym, List.length_replicate, idxSum_eq_sum]
  apply Finset.sum_eq_zero
  intro i hi
  rw [getD_replicate c (Finset.mem_range.mp hi), ybar_replicate hn c]
  ring

theorem rsq_replicate {n : ℕ} (hn : n ≠ 0) (c : ℚ) :
    rsqVal (List.replicate n c) = 0 := by
  rw [rsqVal, List.length_replicate, if_pos]
  rw [ssym_replicate hn c, mul_zero]

theorem direction_replicate {n : ℕ} (hn : 1 ≤ n) (c : ℚ) :
    calculateTrendDirection (List.replicate n c) = .ok "stable" := by
  rw [calculateTrendDirection, List.length_replicate, if_neg (by omega),
    rsq_replicate (by omega) c, if_pos (by norm_num)]

theorem variance_replicate {n : ℕ} (hn : n ≠ 0) (c : ℚ) :
    npVariance (List.replicate n c) = 0 := by
  rw [npVariance, ssym_replicate hn c, zero_div]

theorem headD_replicate {n : ℕ} (hn : 0 < n) (c : ℚ) :
    (List.replicate n c).headD 0 = c := by
  cases n with
  | zero => omega
  | succ k => rw [List.replicate_succ]; rfl

theorem getLastD_replicate (c : ℚ) :
    ∀ {n : ℕ}, 0 < n → (List.replicate n c).getLastD 0 = c := by
  intro n
  induction n with
  | zero => omega
  | succ k ih =>
    intro _
    rw [List.replicate_succ, List.getLastD_cons]
    cases hk : k with
    | zero => rfl
    | succ m =>
      have h := ih (by omega)
      rw [hk] at h
      rw [show List.replicate (m + 1) c = (List.replicate (m + 1) c) from rfl]
      have h2 : (List.replicate (m + 1) c).getLastD c =
          (List.replicate (m + 1) c).getLastD 0 := by
        rw [List.replicate_succ, List.getLastD_cons, List.getLastD_cons]
      rw [h2, h]

theorem momentum_replicate {n : ℕ} (hn : 2 ≤ n) {c : ℚ} (hc : c ≠ 0) :
    calculateMomentum (List.replicate n c) = .fin 0 := by
  rw [calculateMomentum, List.length_replicate, if_neg (by omega),
    getLastD_replicate c (by omega), headD_replicate (by omega) c, sub_self,
    NVal.npDiv, if_neg hc, NVal.mul100, zero_div, zero_mul]

theorem momentum_first_zero {l : List ℚ} (hl : 2 ≤ l.length)
    (h0 : l.headD 0 = 0) : (calculateMomentum l).isFin = false := by
  rw [calculateMomentum, if_neg (by omega), h0, sub_zero, NVal.npDiv, if_pos rfl]
  split_ifs <;> rfl

end TrendTool

/-- C1 (amended): the degenerate trend inputs do not receive the claimed
sentinels.  Momentum is `0` only for fewer than 2 samples; with ≥ 2 samples
and a zero first sample it is a non-finite float (±inf or NaN), not 0.
With `np.mean = 0` the volatility `np.std / np.mean` is NaN (all-zero
series, std 0) or `+inf` (std > 0), never the sentinel 0.  An empty series
makes `linregress` raise `ValueError` in both the direction and the
forecast computation (no NumPy division raises an exception). -/
theorem c1_degenerate_inputs_actual (l : List ℚ) (s : ℚ) :
    (l.length < 2 → TrendTool.calculateMomentum l = .fin 0) ∧
    (2 ≤ l.length → l.headD 0 = 0 →
      (TrendTool.calculateMomentum l).isFin = false) ∧
    (0 ≤ s → TrendTool.volatility s 0 = if s = 0 then NVal.nan else NVal.pinf) ∧
    TrendTool.calculateTrendDirection [] = .error "Inputs must not be empty." ∧
    TrendTool.predictTrend [] = .error "Inputs must not be empty." := by
  refine ⟨?_, ?_, ?_, ?_, ?_⟩
  · intro h
    rw [TrendTool.calculateMomentum, if_pos h]
  · intro h2 h0
    exact TrendTool.momentum_first_zero h2 h0
  · intro hs
    rw [TrendTool.volatility, NVal.npDiv, if_pos rfl]
    by_cases hs0 : s = 0
    · simp [hs0]
    · have hpos : 0 < s := lt_of_le_of_ne hs (Ne.symm hs0)
      rw [if_pos hpos, if_neg hs0]
  · rfl
  · rfl

/-- C1 counterexample: the claim asserts momentum 0 for a first sample of
0 and volatility 0 for mean 0; the code returns `+inf` momentum on
`[0, 5]` and NaN volatility on the all-zero series. -/
theorem c1_counterexample :
    TrendTool.calculateMomentum [0, 5] = NVal.pinf ∧
    NVal.pinf ≠ NVal.fin 0 ∧
    TrendTool.volatility 0 0 = NVal.nan ∧
    NVal.nan ≠ NVal.fin 0 := by
  refine ⟨?_, by decide, ?_, by decide⟩
  · simp [TrendTool.calculateMomentum, NVal.npDiv, NVal.mul100]
  · simp [TrendTool.volatility, NVal.npDiv]

/-- C1 witness: the amended theorem applied to the concrete series
`[0, 5]` and the all-zero series' statistics `std = mean = 0`. -/
theorem c1_witness :
    (TrendTool.calculateMomentum [0, 5]).isFin = false ∧
    TrendTool.volatility 0 0 = NVal.nan := by
  have h := c1_degenerate_inputs_actual [0, 5] 0
  refine ⟨h.2.1 (by norm_num) (by norm_num), ?_⟩
  have h3 := h.2.2.1 le_rfl
  simpa using h3

/-- C4 (amended): for every non-empty series the direction is "stable"
exactly when `r² < 0.09` (that is, `|r| < 0.3`), and otherwise follows the
sign of the fitted slope (a single sample has zero second moments, hence
`r = 0` and "stable"; only the empty series raises).  Every non-empty
series of identical values has variance 0 (hence `np.std = 0`) and
direction "stable", and momentum 0 — except identical *zeros* with ≥ 2
samples, where NumPy's `0/0` gives NaN momentum instead. -/
theorem c4_direction_threshold_and_constant_series (l : List ℚ) (c : ℚ) (n : ℕ) :
    (1 ≤ l.length →
      ((TrendTool.calculateTrendDirection l = .ok "stable" ↔
          TrendTool.rsqVal l < 9 / 100) ∧
       (¬ TrendTool.rsqVal l < 9 / 100 →
          TrendTool.calculateTrendDirection l =
            .ok (if 0 < TrendTool.slope l then "increasing" else "decreasing")))) ∧
    (1 ≤ n →
      TrendTool.npVariance (List.replicate n c) = 0 ∧
      TrendTool.calculateTrendDirection (List.replicate n c) = .ok "stable" ∧
      (n = 1 ∨ c ≠ 0 →
        TrendTool.calculateMomentum (List.replicate n c) = .fin 0)) := by
  constructor
  · intro h1
    constructor
    · rw [TrendTool.calculateTrendDirection, if_neg (by omega)]
      split_ifs with hr hs <;> simp [hr]
    · intro hnr
      rw [TrendTool.calculateTrendDirection, if_neg (by omega), if_neg hnr]
  · intro hn1
    refine ⟨TrendTool.variance_replicate (by omega) c,
      TrendTool.direction_replicate hn1 c, ?_⟩
    rintro (rfl | hc)
    · rw [TrendTool.calculateMomentum, if_pos (by simp)]
    · rcases Nat.lt_or_ge n 2 with h2 | h2
      · rw [TrendTool.calculateMomentum, if_pos (by simpa using h2)]
      · exact TrendTool.momentum_replicate h2 hc

/-- C4 counterexample: `[0, 0]` is a non-empty series of identical values,
yet its momentum is NaN (NumPy `0/0`), not 0; and the empty series makes
the direction computation raise rather than classify. -/
theorem c4_counterexample :
    TrendTool.calculateMomentum [0, 0] = NVal.nan ∧
    NVal.nan ≠ NVal.fin 0 ∧
    TrendTool.calculateTrendDirection [] = .error "Inputs must not be empty." := by
  refine ⟨?_, by decide, rfl⟩
  simp [TrendTool.calculateMomentum, NVal.npDiv, NVal.mul100]

/-- C4 witness: the amended theorem applied to the constant series
`replicate 2 5` and the singleton `replicate 1 7` (which is classified
"stable" with momentum 0, not an error). -/
theorem c4_witness :
    TrendTool.calculateTrendDirection (List.replicate 2 (5 : ℚ)) = .ok "stable" ∧
    TrendTool.calculateMomentum (List.replicate 2 (5 : ℚ)) = .fin 0 ∧
    TrendTool.calculateTrendDirection (List.replicate 1 (7 : ℚ)) = .ok "stable" ∧
    TrendTool.calculateMomentum (List.replicate 1 (7 : ℚ)) = .fin 0 := by
  have h := (c4_direction_threshold_and_constant_series [] 5 2).2 (by norm_num)
  have h1 := (c4_direction_threshold_and_constant_series [] 7 1).2 (by norm_num)
  exact ⟨h.2.1, h.2.2 (Or.inr (by norm_num)), h1.2.1, h1.2.2 (Or.inl rfl)⟩

/-- C8 (confirmed): for every series of at least 2 samples the forecast is
`.ok` of exactly 30 finite values `slope·x + intercept` at the
continuation indices `n, …, n+29`, with the same fitted
`slope`/`intercept` the direction classification uses and no clamping;
and an exactly linear strictly increasing series is classified
"increasing" with a forecast that continues the same slope exactly. -/
theorem c8_forecast_linear_extrapolation (l : List ℚ) (a b : ℚ) (n : ℕ) :
    (2 ≤ l.length →
      TrendTool.predictTrend l =
        .ok ((List.range 30).map fun i : ℕ =>
          NVal.fin (TrendTool.slope l * ((l.length + i : ℕ) : ℚ) +
            TrendTool.intercept l)) ∧
      ∀ fc, TrendTool.predictTrend l = .ok fc → fc.length = 30) ∧
    (2 ≤ n → 0 < b →
      TrendTool.calculateTrendDirection (TrendTool.linList a b n) = .ok "increasing" ∧
      TrendTool.predictTrend (TrendTool.linList a b n) =
        .ok ((List.range 30).map fun i : ℕ =>
          NVal.fin (a + b * ((n + i : ℕ) : ℚ)))) := by
  constructor
  · intro h2
    constructor
    · rw [TrendTool.predictTrend, if_neg (by omega)]
      congr 1
      apply List.map_congr_left
      intro i _
      rw [TrendTool.forecastVal_fin h2]
    · intro fc hfc
      rw [TrendTool.predictTrend, if_neg (by omega)] at hfc
      injection hfc with h
      rw [← h, List.length_map, List.length_range]
  · intro hn hb
    exact ⟨TrendTool.direction_lin a hb hn, TrendTool.predict_lin a b hn⟩

/-- C8 witness: the linear series `10, 20, 30, 40, 50` (slope 10). -/
theorem c8_witness :
    TrendTool.linList 10 10 5 = [10, 20, 30, 40, 50] ∧
    TrendTool.calculateTrendDirection (TrendTool.linList 10 10 5) = .ok "increasing" ∧
    TrendTool.predictTrend (TrendTool.linList 10 10 5) =
      .ok ((List.range 30).map fun i : ℕ =>
        NVal.fin (10 + 10 * ((5 + i : ℕ) : ℚ))) := by
  have h := (c8_forecast_linear_extrapolation [] 10 10 5).2 (by norm_num) (by norm_num)
  refine ⟨?_, h.1, h.2⟩
  simp [TrendTool.linList, List.range_succ]
  norm_num

namespace ChannelTool

theorem round2_int (z : ℤ) : round2 (z : ℚ) = (z : ℚ) := by
  have hfl : ⌊((z : ℚ) * 100)⌋ = z * 100 := by
    rw [show ((z : ℚ) * 100) = ((z * 100 : ℤ) : ℚ) by push_cast; ring, Int.floor_intCast]
  simp only [round2, roundHalfEven, hfl]
  rw [if_pos (by push_cast; norm_num)]
  push_cast
  field_simp

theorem er_views_pos {r : VideoRecord} (h : 0 < r.views) :
    engagementRate r =
      .fin (round2 (((r.likes + r.comments : ℕ) : ℚ) / ((r.views : ℕ) : ℚ) * 100)) := by
  rw [engagementRate, NVal.npDiv, if_neg (by positivity), NVal.mul100, nvRound2]

theorem er_zero_nan {r : VideoRecord} (hv : r.views = 0)
    (he : r.likes + r.comments = 0) : engagementRate r = .nan := by
  rw [engagementRate, hv, NVal.npDiv, if_pos (by norm_num)]
  rw [show ((r.likes + r.comments : ℕ) : ℚ) = 0 by rw [he]; norm_num]
  rw [if_neg (by norm_num), if_neg (by norm_num)]
  rfl

theorem er_zero_pinf {r : VideoRecord} (hv : r.views = 0)
    (he : 0 < r.likes + r.comments) : engagementRate r = .pinf := by
  rw [engagementRate, hv, NVal.npDiv, if_pos (by norm_num),
    if_pos (by exact_mod_cast he)]
  rfl

theorem er_ne_ninf (r : VideoRecord) : engagementRate r ≠ .ninf := by
  rw [engagementRate, NVal.npDiv]
  split_ifs with h1 h2 h3
  · exact fun h => NVal.noConfusion h
  · intro h
    rw [show NVal.mul100 .ninf = .ninf from rfl] at h
    have : ((r.likes + r.comments : ℕ) : ℚ) < 0 := h3
    have h0 : (0 : ℚ) ≤ ((r.likes + r.comments : ℕ) : ℚ) := by positivity
    linarith
  · exact fun h => NVal.noConfusion h
  · exact fun h => NVal.noConfusion h

theorem firstArgmaxAux_none {vl : List ℕ} (h : firstArgmaxAux vl = none) :
    vl = [] := by
  cases vl with
  | nil => rfl
  | cons v vs =>
    rw [firstArgmaxAux] at h
    rcases haux : firstArgmaxAux vs with _ | p
    · rw [haux] at h
      exact absurd h (by simp)
    · rw [haux] at h
      rcases p with ⟨j, m⟩
      simp only at h
      split_ifs at h

theorem firstArgmaxAux_spec :
    ∀ (vl : List ℕ) (j m : ℕ), firstArgmaxAux vl = some (j, m) →
      j < vl.length ∧ vl.getD j 0 = m ∧ (∀ x ∈ vl, x ≤ m) ∧
      (∀ k, k < j → vl.getD k 0 < m) := by
  intro vl
  induction vl with
  | nil => intro j m h; exact absurd h (by simp [firstArgmaxAux])
  | cons v vs ih =>
    intro j m h
    rw [firstArgmaxAux] at h
    rcases haux : firstArgmaxAux vs with _ | p
    · rw [haux] at h
      simp only at h
      injection h with hp
      have hj : j = 0 := (congrArg Prod.fst hp).symm
      have hm : m = v := (congrArg Prod.snd hp).symm
      subst hj
      subst hm
      have hvs : vs = [] := firstArgmaxAux_none haux
      subst hvs
      refine ⟨by simp, rfl, ?_, by intro k hk; omega⟩
      intro x hx
      rcases List.mem_cons.mp hx with rfl | hx2
      · exact le_rfl
      · exact absurd hx2 (List.not_mem_nil x)
    · rcases p with ⟨j2, m2⟩
      rw [haux] at h
      simp only at h
      obtain ⟨ih1, ih2, ih3, ih4⟩ := ih j2 m2 haux
      by_cases hlt : v < m2
      · rw [if_pos hlt] at h
        injection h with hp
        have hj : j = j2 + 1 := (congrArg Prod.fst hp).symm
        have hm : m = m2 := (congrArg Prod.snd hp).symm
        subst hj
        subst hm
        refine ⟨by simp; omega, by simpa [List.getD_cons_succ] using ih2, ?_, ?_⟩
        · intro x hx
          rcases List.mem_cons.mp hx with rfl | hx2
          · exact le_of_lt hlt
          · exact ih3 x hx2
        · intro k hk
          cases k with
          | zero => simpa [List.getD_cons_zero] using hlt
          | succ k2 => simpa [List.getD_cons_succ] using ih4 k2 (by omega)
      · rw [if_neg hlt] at h
        injection h with hp
        have hj : j = 0 := (congrArg Prod.fst hp).symm
        have hm : m = v := (congrArg Prod.snd hp).symm
        subst hj
        subst hm
        refine ⟨by simp, rfl, ?_, by intro k hk; omega⟩
        intro x hx
        rcases List.mem_cons.mp hx with rfl | hx2
        · exact le_rfl
        · exact le_trans (ih3 x hx2) (Nat.le_of_not_lt hlt)

theorem getD_views_map (recs : List VideoRecord) :
    ∀ j, j < recs.length →
      (recs.map (fun r => r.views)).getD j 0 = (recs.getD j ⟨0, 0, 0⟩).views := by
  induction recs with
  | nil => intro j hj; simp at hj
  | cons r rest ih =>
    intro j hj
    cases j with
    | zero => rfl
    | succ k =>
      rw [List.map_cons, List.getD_cons_succ, List.getD_cons_succ]
      exact ih k (by simpa using Nat.lt_of_succ_lt_succ hj)

end ChannelTool

namespace ChannelTool

theorem hasPinf_iff (vl : List NVal) : hasPinf vl = true ↔ NVal.pinf ∈ vl := by
  simp [hasPinf, List.any_eq_true]

theorem hasNinf_iff (vl : List NVal) : hasNinf vl = true ↔ NVal.ninf ∈ vl := by
  simp [hasNinf, List.any_eq_true]

theorem notNan_pinf : notNan NVal.pinf = true := rfl

theorem npMean_pinf {vals : List NVal} (hp : NVal.pinf ∈ vals)
    (hn : ∀ v ∈ vals, v ≠ NVal.ninf) : npMeanSkipNa vals = .pinf := by
  have hkeep : NVal.pinf ∈ keepNotNan vals :=
    List.mem_filter.mpr ⟨hp, notNan_pinf⟩
  have hne : (keepNotNan vals).isEmpty = false := by
    rcases hke : keepNotNan vals with _ | ⟨a, t⟩
    · rw [hke] at hkeep
      exact absurd hkeep (List.not_mem_nil _)
    · rfl
  have hP : hasPinf (keepNotNan vals) = true := (hasPinf_iff _).mpr hkeep
  have hN : hasNinf (keepNotNan vals) = false := by
    rw [← Bool.not_eq_true]
    intro hcon
    have hmem : NVal.ninf ∈ keepNotNan vals := (hasNinf_iff _).mp hcon
    exact hn _ (List.mem_filter.mp hmem).1 rfl
  simp [npMeanSkipNa, hne, hP, hN]

theorem npMean_cons_nan (vals : List NVal) :
    npMeanSkipNa (NVal.nan :: vals) = npMeanSkipNa vals := by
  simp [npMeanSkipNa, keepNotNan, List.filter_cons, notNan]

end ChannelTool

/-- C2 (amended): the per-record engagement rate is
`round₂((likes + comments) / views · 100)` and is finite exactly when
`views > 0`.  A zero-view record does *not* get an "absent" rate: pandas
division yields NaN when `likes + comments = 0` (and only that case is
excluded from the average) and `+inf` when `likes + comments > 0`, in
which case the engagement-rate average itself becomes `+inf` rather than
excluding the record.  Every record, zero-view or not, is still counted in
the record count (`recent_videos`). -/
theorem c2_engagement_rate_zero_views (r z : ChannelTool.VideoRecord)
    (recs : List ChannelTool.VideoRecord) :
    (0 < r.views → ChannelTool.engagementRate r =
      .fin (ChannelTool.round2
        (((r.likes + r.comments : ℕ) : ℚ) / ((r.views : ℕ) : ℚ) * 100))) ∧
    (r.views = 0 → r.likes + r.comments = 0 →
      ChannelTool.engagementRate r = .nan) ∧
    (r.views = 0 → 0 < r.likes + r.comments →
      ChannelTool.engagementRate r = .pinf) ∧
    (recs ≠ [] → (ChannelTool.performanceMetrics recs).recentCount = recs.length) ∧
    ((∃ p ∈ recs, p.views = 0 ∧ 0 < p.likes + p.comments) →
      (ChannelTool.performanceMetrics recs).avgEngagementRate = .pinf) ∧
    (z.views = 0 → z.likes + z.comments = 0 →
      ChannelTool.npMeanSkipNa (List.map ChannelTool.engagementRate (z :: recs)) =
        ChannelTool.npMeanSkipNa (List.map ChannelTool.engagementRate recs)) := by
  refine ⟨ChannelTool.er_views_pos, ChannelTool.er_zero_nan, ChannelTool.er_zero_pinf,
    ?_, ?_, ?_⟩
  · intro hne
    rw [ChannelTool.performanceMetrics, if_neg (by simpa [List.isEmpty_iff] using hne)]
  · rintro ⟨p, hp, hv, he⟩
    have hne : recs ≠ [] := by
      intro hcon
      rw [hcon] at hp
      exact absurd hp (List.not_mem_nil p)
    rw [ChannelTool.performanceMetrics, if_neg (by simpa [List.isEmpty_iff] using hne)]
    apply ChannelTool.npMean_pinf
    · have := ChannelTool.er_zero_pinf hv he
      exact this ▸ List.mem_map_of_mem ChannelTool.engagementRate hp
    · intro v hv2
      rcases List.mem_map.mp hv2 with ⟨q, _, rfl⟩
      exact ChannelTool.er_ne_ninf q
  · intro hv he
    rw [List.map_cons, ChannelTool.er_zero_nan hv he, ChannelTool.npMean_cons_nan]

/-- C2 counterexample: with records `(views 0, likes 5, comments 0)` and
`(views 100, likes 10, comments 0)`, the claim demands that the first
record's rate be absent and the average be the valid record's 10%; the
code instead gives the first record rate `+inf` and average `+inf`. -/
theorem c2_counterexample :
    ChannelTool.engagementRate ⟨0, 5, 0⟩ = NVal.pinf ∧
    (ChannelTool.performanceMetrics [⟨0, 5, 0⟩, ⟨100, 10, 0⟩]).avgEngagementRate =
      NVal.pinf ∧
    NVal.pinf ≠ NVal.fin 10 ∧
    (ChannelTool.performanceMetrics [⟨0, 5, 0⟩, ⟨100, 10, 0⟩]).recentCount = 2 := by
  refine ⟨?_, ?_, by decide, ?_⟩
  · exact ChannelTool.er_zero_pinf rfl (by norm_num)
  · rw [ChannelTool.performanceMetrics, if_neg (by simp)]
    dsimp only
    apply ChannelTool.npMean_pinf
    · have h1 : ChannelTool.engagementRate ⟨0, 5, 0⟩ = NVal.pinf :=
        ChannelTool.er_zero_pinf rfl (by norm_num)
      simp [h1]
    · intro v hv
      rcases List.mem_map.mp hv with ⟨q, _, rfl⟩
      exact ChannelTool.er_ne_ninf q
  · rfl

/-- C2 witness: the amended theorem applied to the concrete pair of
records of the counterexample, plus the positive-views record. -/
theorem c2_witness :
    ChannelTool.engagementRate ⟨100, 10, 0⟩ =
      .fin (ChannelTool.round2 (((10 + 0 : ℕ) : ℚ) / ((100 : ℕ) : ℚ) * 100)) ∧
    ChannelTool.engagementRate ⟨0, 0, 0⟩ = NVal.nan := by
  have h := c2_engagement_rate_zero_views ⟨100, 10, 0⟩ ⟨100, 10, 0⟩ []
  have h2 := c2_engagement_rate_zero_views ⟨0, 0, 0⟩ ⟨0, 0, 0⟩ []
  exact ⟨h.1 (by norm_num), h2.2.1 rfl rfl⟩

/-- C10 (confirmed): when `idxmax` selects index `i`, that index is in
range, its record's view count is maximal over all records, and every
strictly earlier record has a strictly smaller view count — i.e. ties for
the maximum resolve to the earliest index. -/
theorem c10_best_performing_first_max (recs : List ChannelTool.VideoRecord) (i : ℕ)
    (h : ChannelTool.idxmaxViews recs = some i) :
    i < recs.length ∧
    (∀ r ∈ recs, r.views ≤ (recs.getD i ⟨0, 0, 0⟩).views) ∧
    (∀ k, k < i → (recs.getD k ⟨0, 0, 0⟩).views < (recs.getD i ⟨0, 0, 0⟩).views) := by
  rcases haux : ChannelTool.firstArgmaxAux (recs.map (fun r => r.views)) with _ | p
  · rw [ChannelTool.idxmaxViews, haux] at h
    exact absurd h (by simp)
  · rcases p with ⟨j, m⟩
    rw [ChannelTool.idxmaxViews, haux] at h
    have hij : j = i := by simpa using h
    subst hij
    obtain ⟨h1, h2, h3, h4⟩ := ChannelTool.firstArgmaxAux_spec _ j m haux
    rw [List.length_map] at h1
    have hgd := ChannelTool.getD_views_map recs j h1
    refine ⟨h1, ?_, ?_⟩
    · intro r hr
      have := h3 r.views (List.mem_map_of_mem (fun r => r.views) hr)
      rw [← h2, hgd] at this
      exact this
    · intro k hk
      have hkl : k < recs.length := lt_trans hk h1
      have := h4 k hk
      rw [← h2, hgd, ChannelTool.getD_views_map recs k hkl] at this
      exact this

/-- C10 witness: two records tie at 5 views; `idxmax` returns index 0,
and the theorem's conclusions hold there. -/
theorem c10_witness :
    ChannelTool.idxmaxViews [⟨5, 0, 0⟩, ⟨5, 1, 1⟩] = some 0 ∧
    (∀ r ∈ ([⟨5, 0, 0⟩, ⟨5, 1, 1⟩] : List ChannelTool.VideoRecord),
      r.views ≤ (([⟨5, 0, 0⟩, ⟨5, 1, 1⟩] :
        List ChannelTool.VideoRecord).getD 0 ⟨0, 0, 0⟩).views) := by
  have hidx : ChannelTool.idxmaxViews [⟨5, 0, 0⟩, ⟨5, 1, 1⟩] = some 0 := by decide
  exact ⟨hidx, (c10_best_performing_first_max [⟨5, 0, 0⟩, ⟨5, 1, 1⟩] 0 hidx).2.1⟩

namespace OptimizerTool

theorem syllAux_countP (cs : List Char) :
    ∀ prev, syllAux cs prev =
      (cs.zip (prev :: cs.map isVowelCh)).countP (fun p => isVowelCh p.1 && !p.2) := by
  induction cs with
  | nil => intro prev; rfl
  | cons c cs ih =>
    intro prev
    rw [syllAux, List.map_cons, List.zip_cons_cons, List.countP_cons, ih (isVowelCh c)]
    simp [Nat.add_comm]

theorem vowelRunCount_eq (cs : List Char) : vowelRunCount cs = syllAux cs false := by
  rw [vowelRunCount, syllAux_countP cs false]

theorem syllAux_pos : ∀ {cs : List Char}, (∃ c ∈ cs, isVowelCh c = true) →
    1 ≤ syllAux cs false := by
  intro cs
  induction cs with
  | nil =>
    rintro ⟨c, hc, _⟩
    exact absurd hc (List.not_mem_nil c)
  | cons c cs ih =>
    rintro ⟨d, hd, hdv⟩
    rcases List.mem_cons.mp hd with rfl | hd2
    · rw [syllAux]
      simp [hdv]
    · rw [syllAux]
      cases hcv : isVowelCh c
      · have h1 := ih ⟨d, hd2, hdv⟩
        simpa [hcv] using h1
      · simp [hcv]

theorem endsE_vowel {cs : List Char} (h : endsE cs = true) :
    ∃ c ∈ cs, isVowelCh c = true := by
  rw [endsE] at h
  have h2 : cs.getLastD ' ' = 'e' := eq_of_beq h
  cases cs with
  | nil => exact absurd h2 (by decide)
  | cons a t =>
    refine ⟨(a :: t).getLast (by simp), List.getLast_mem _, ?_⟩
    have h4 := List.getLastD_eq_getLast? ' ' (a :: t)
    rw [List.getLast?_eq_getLast (a :: t) (by simp)] at h4
    rw [h4] at h2
    simp only [Option.getD_some] at h2
    rw [h2]
    rfl

theorem countSyllables_eq_spec (w : String) :
    countSyllables w = (specSyllables w : ℤ) := by
  rw [countSyllables, specSyllables, vowelRunCount_eq]
  by_cases he : endsE (w.data.map Char.toLower) = true
  · have hpos : 1 ≤ syllAux (w.data.map Char.toLower) false :=
      syllAux_pos (endsE_vowel he)
    simp only [he, if_true, ite_true]
    rcases eq_or_lt_of_le hpos with h1 | h2
    · rw [← h1]
      norm_num
    · rw [if_neg (by omega)]
      have hmax : max (syllAux (w.data.map Char.toLower) false - 1) 1 =
          syllAux (w.data.map Char.toLower) false - 1 := by omega
      rw [hmax]
      omega
  · simp only [Bool.not_eq_true] at he
    simp only [he, Bool.false_eq_true, if_false, ite_false]
    by_cases hb0 : syllAux (w.data.map Char.toLower) false = 0
    · simp [hb0]
    · rw [if_neg (by exact_mod_cast hb0)]
      have hmax : max (syllAux (w.data.map Char.toLower) false - 0) 1 =
          syllAux (w.data.map Char.toLower) false := by omega
      rw [hmax]

theorem sum_countSyllables_eq (ws : List String) :
    (ws.map countSyllables).sum = ((ws.map specSyllables).sum : ℕ) := by
  induction ws with
  | nil => rfl
  | cons w ws ih =>
    rw [List.map_cons, List.map_cons, List.sum_cons, List.sum_cons,
      countSyllables_eq_spec w, ih]
    push_cast
    ring

end OptimizerTool

/-- C5 (confirmed): the readability score is exactly the Flesch Reading
Ease formula clamped to `[0, 100]`, where each word contributes
`max(vowel runs − [ends in "e"], 1)` syllables (`specSyllables`, the
spec's independent rendering of the heuristic), and a zero sentence or
word count short-circuits to exactly 0 with no division. -/
theorem c5_readability_flesch_formula (s : ℕ) (ws : List String) :
    OptimizerTool.calcReadability s ws =
      if s = 0 ∨ ws.length = 0 then 0
      else
        min (max (206.835 - 1.015 * ((ws.length : ℚ) / (s : ℚ))
          - 84.6 * (((ws.map OptimizerTool.specSyllables).sum : ℕ) : ℚ)
            / (ws.length : ℚ)) 0) 100 := by
  rw [OptimizerTool.calcReadability, OptimizerTool.sum_countSyllables_eq]
  by_cases h : s = 0 ∨ ws.length = 0
  · rw [if_pos h, if_pos h]
  · rw [if_neg h, if_neg h]
    norm_cast
    simp [List.map_map, Function.comp_def]

/-- C6 (amended): each of the four SEO checks is skipped (no points, no
message) when its field is absent (for the keyword check: when the density
map is empty), and otherwise contributes either exactly 25 points with no
message or exactly one diagnostic message with no points, never both; the
total score and diagnostic list are the sum/concatenation of the four
checks in source order.  The keyword-density check awards its 25 points on
the *closed* interval `0.5 ≤ maxDensity ≤ 5` (the code tests `> 5` then
`< 0.5`), appending "keyword stuffing" strictly above 5 and "usage too
low" strictly below 0.5 — not on the open interval the claim states. -/
theorem c6_seo_check_dichotomy (bs : String → ℕ) (bw : String → List String)
    (c : OptimizerTool.ContentB) (t d : String) (ts : List String)
    (kd : List (String × ℚ)) :
    (OptimizerTool.titleCheck none = (0, []) ∧
      (OptimizerTool.titleCheck (some t) = (25, []) ∨
        ∃ m, OptimizerTool.titleCheck (some t) = (0, [m]))) ∧
    (OptimizerTool.descriptionCheck none = (0, []) ∧
      (OptimizerTool.descriptionCheck (some d) = (25, []) ∨
        ∃ m, OptimizerTool.descriptionCheck (some d) = (0, [m]))) ∧
    (OptimizerTool.tagsCheck none = (0, []) ∧
      (OptimizerTool.tagsCheck (some ts) = (25, []) ∨
        ∃ m, OptimizerTool.tagsCheck (some ts) = (0, [m]))) ∧
    (OptimizerTool.densityCheck [] = (0, [])) ∧
    (kd ≠ [] →
      ((OptimizerTool.densityCheck kd = (25, []) ↔
          0.5 ≤ OptimizerTool.listMaxQ (kd.map (fun p => p.2)) ∧
          OptimizerTool.listMaxQ (kd.map (fun p => p.2)) ≤ 5) ∧
       (5 < OptimizerTool.listMaxQ (kd.map (fun p => p.2)) →
          OptimizerTool.densityCheck kd =
            (0, ["Keyword stuffing detected (density > 5%)"])) ∧
       (OptimizerTool.listMaxQ (kd.map (fun p => p.2)) < 0.5 →
          OptimizerTool.densityCheck kd =
            (0, ["Main keyword usage is too low (< 0.5%)"])))) ∧
    ((OptimizerTool.optimizeSeo bs bw c).seoScore =
      (OptimizerTool.titleCheck c.title).1 +
      (OptimizerTool.descriptionCheck c.description).1 +
      (OptimizerTool.tagsCheck c.tags).1 +
      (OptimizerTool.densityCheck (OptimizerTool.keywordDensityOf c)).1) ∧
    ((OptimizerTool.optimizeSeo bs bw c).improvementAreas =
      (OptimizerTool.titleCheck c.title).2 ++
      (OptimizerTool.descriptionCheck c.description).2 ++
      (OptimizerTool.tagsCheck c.tags).2 ++
      (OptimizerTool.densityCheck (OptimizerTool.keywordDensityOf c)).2) := by
  refine ⟨⟨rfl, ?_⟩, ⟨rfl, ?_⟩, ⟨rfl, ?_⟩, rfl, ?_, rfl, rfl⟩
  · rw [OptimizerTool.titleCheck]
    split_ifs
    · exact Or.inr ⟨_, rfl⟩
    · exact Or.inr ⟨_, rfl⟩
    · exact Or.inl rfl
  · rw [OptimizerTool.descriptionCheck]
    split_ifs
    · exact Or.inr ⟨_, rfl⟩
    · exact Or.inr ⟨_, rfl⟩
    · exact Or.inl rfl
  · rw [OptimizerTool.tagsCheck]
    split_ifs
    · exact Or.inr ⟨_, rfl⟩
    · exact Or.inl rfl
  · intro hkd
    have hne : kd.isEmpty = false := by
      rcases kd with _ | ⟨p, rest⟩
      · exact absurd rfl hkd
      · rfl
    rw [OptimizerTool.densityCheck, hne]
    simp only [Bool.false_eq_true, if_false]
    split_ifs with h5 hlow
    · refine ⟨?_, fun _ => rfl, fun hl => absurd hl (by linarith)⟩
      constructor
      · intro hcon
        exact absurd (congrArg Prod.fst hcon) (by norm_num)
      · rintro ⟨_, hle⟩
        linarith
    · refine ⟨?_, fun hg => absurd hg h5, fun _ => rfl⟩
      constructor
      · intro hcon
        exact absurd (congrArg Prod.fst hcon) (by norm_num)
      · rintro ⟨hge, _⟩
        linarith
    · push_neg at h5 hlow
      exact ⟨iff_of_true rfl ⟨hlow, h5⟩, fun hg => absurd hg (by linarith),
        fun hl => absurd hl (by linarith)⟩

/-- C6 counterexample: a script of 20 distinct words puts the top keyword
density at exactly 5% — on the boundary, *not* strictly inside (0.5%, 5%) —
yet the code awards the full 25 points and appends no diagnostic, where
the claim requires the award only strictly inside the open interval. -/
theorem c6_counterexample :
    OptimizerTool.optimizeSeo (fun _ => 0) (fun _ => [])
        ⟨none, none, none, some "a b c d e f g h i j k l m n o p q r s t"⟩ =
      { keywordDensity := [("a", 5), ("b", 5), ("c", 5), ("d", 5), ("e", 5),
          ("f", 5), ("g", 5), ("h", 5), ("i", 5), ("j", 5)],
        readabilityScore := 0,
        seoScore := 25,
        improvementAreas := [] } ∧
    ¬((0.5 : ℚ) < 5 ∧ (5 : ℚ) < 5) := by
  have hw : OptimizerTool.findWords (OptimizerTool.allTextOf
      ⟨none, none, none, some "a b c d e f g h i j k l m n o p q r s t"⟩) =
      ["a", "b", "c", "d", "e", "f", "g", "h", "i", "j",
       "k", "l", "m", "n", "o", "p", "q", "r", "s", "t"] := by decide
  have hmc : Util.mostCommon 10
      ["a", "b", "c", "d", "e", "f", "g", "h", "i", "j",
       "k", "l", "m", "n", "o", "p", "q", "r", "s", "t"] =
      [("a", 1), ("b", 1), ("c", 1), ("d", 1), ("e", 1),
       ("f", 1), ("g", 1), ("h", 1), ("i", 1), ("j", 1)] := by decide
  have hkd : OptimizerTool.keywordDensityOf
      ⟨none, none, none, some "a b c d e f g h i j k l m n o p q r s t"⟩ =
      [("a", 5), ("b", 5), ("c", 5), ("d", 5), ("e", 5),
       ("f", 5), ("g", 5), ("h", 5), ("i", 5), ("j", 5)] := by
    rw [OptimizerTool.keywordDensityOf]
    rw [hw, hmc]
    norm_num
  constructor
  · rw [OptimizerTool.optimizeSeo]
    rw [hkd]
    have hdc : OptimizerTool.densityCheck
        [("a", 5), ("b", 5), ("c", 5), ("d", 5), ("e", 5),
         ("f", 5), ("g", 5), ("h", 5), ("i", 5), ("j", 5)] = (25, []) := by
      rw [OptimizerTool.densityCheck]
      norm_num [OptimizerTool.listMaxQ]
    rw [hdc]
    have hrd : OptimizerTool.calcReadability ((fun _ => 0) (OptimizerTool.allTextOf
        ⟨none, none, none, some "a b c d e f g h i j k l m n o p q r s t"⟩))
        ((fun _ => ([] : List String)) (OptimizerTool.allTextOf
        ⟨none, none, none, some "a b c d e f g h i j k l m n o p q r s t"⟩)) = 0 := by
      rw [OptimizerTool.calcReadability]
      norm_num
    rw [hrd]
    norm_num [OptimizerTool.titleCheck, OptimizerTool.descriptionCheck,
      OptimizerTool.tagsCheck]
  · norm_num

/-- C6 witness: the dichotomy theorem applied to a density map whose top
density 3% lies inside `[0.5, 5]`, and to an absent title. -/
theorem c6_witness :
    OptimizerTool.densityCheck [("ai", 3)] = (25, []) ∧
    OptimizerTool.titleCheck none = (0, []) := by
  have h := c6_seo_check_dichotomy (fun _ => 0) (fun _ => [])
    ⟨none, none, none, none⟩ "t" "d" [] [("ai", 3)]
  refine ⟨?_, h.1.1⟩
  exact (h.2.2.2.2.1 (by simp)).1.mpr
    ⟨by norm_num [OptimizerTool.listMaxQ], by norm_num [OptimizerTool.listMaxQ]⟩

/-- C9 (amended): with the ambient clock made explicit, two invocations of
`ContentOptimizer.run` with identical arguments produce identical analytic
output — the same SEO analysis, optimized content, predictions and
recommendations, platform and version — but the returned metadata embeds
`datetime.now().isoformat()`, so the full output is not bit-for-bit
identical across calls made at different times: its
`optimization_timestamp` field equals the clock at each call. -/
theorem c9_run_pure_except_timestamp (bs : String → ℕ)
    (bw : String → List String) (c : OptimizerTool.ContentB) (p t1 t2 : String) :
    (OptimizerTool.runCO bs bw c p t1).seoAnalysis =
      (OptimizerTool.runCO bs bw c p t2).seoAnalysis ∧
    (OptimizerTool.runCO bs bw c p t1).optimizedTitle =
      (OptimizerTool.runCO bs bw c p t2).optimizedTitle ∧
    (OptimizerTool.runCO bs bw c p t1).optimizedDescription =
      (OptimizerTool.runCO bs bw c p t2).optimizedDescription ∧
    (OptimizerTool.runCO bs bw c p t1).optimizedTags =
      (OptimizerTool.runCO bs bw c p t2).optimizedTags ∧
    (OptimizerTool.runCO bs bw c p t1).optimizedScript =
      (OptimizerTool.runCO bs bw c p t2).optimizedScript ∧
    (OptimizerTool.runCO bs bw c p t1).engagementPredictions =
      (OptimizerTool.runCO bs bw c p t2).engagementPredictions ∧
    (OptimizerTool.runCO bs bw c p t1).recommendations =
      (OptimizerTool.runCO bs bw c p t2).recommendations ∧
    (OptimizerTool.runCO bs bw c p t1).metadataPlatform =
      (OptimizerTool.runCO bs bw c p t2).metadataPlatform ∧
    (OptimizerTool.runCO bs bw c p t1).metadataVersion =
      (OptimizerTool.runCO bs bw c p t2).metadataVersion ∧
    (OptimizerTool.runCO bs bw c p t1).metadataTimestamp = t1 :=
  ⟨rfl, rfl, rfl, rfl, rfl, rfl, rfl, rfl, rfl, rfl⟩

/-- C9 counterexample: two calls with identical arguments, one second
apart, return different outputs — the metadata timestamp differs. -/
theorem c9_counterexample :
    OptimizerTool.runCO (fun _ => 0) (fun _ => []) ⟨none, none, none, none⟩
        "youtube" "2024-01-01T00:00:00" ≠
      OptimizerTool.runCO (fun _ => 0) (fun _ => []) ⟨none, none, none, none⟩
        "youtube" "2024-01-01T00:00:01" := by
  intro h
  have h2 := congrArg OptimizerTool.COResult.metadataTimestamp h
  simp [OptimizerTool.runCO] at h2

/-- C3 (amended): on an empty unit collection the aggregation stage does
*not* return zero/empty aggregates — `pd.DataFrame([])` has no columns, so
the first column access `df['text']` raises `KeyError`.  For a nonempty
collection whose top topics are free of regex metacharacters (other than
the modelled '.'), the aggregates are computed and returned; topics are
compiled as regexes by `str.contains`, so a metacharacter topic such as
`"**wow**"` can instead raise `re.error` during attribution. -/
theorem c3_empty_units_raises (pol subj : String → ℚ) (lab : String → String)
    (tagOfText : String → List (List (String × String)))
    (dateOf : String → String) (units : List SentimentTool.SUnit) :
    SentimentTool.aggregate pol subj lab tagOfText dateOf [] =
      .error "KeyError: 'text'" ∧
    (units ≠ [] →
      (SentimentTool.topTopicsOf tagOfText units).all
        (fun tp => SentimentTool.patInFragment (tp.1.data.map Char.toLower)) = true →
      ∃ r, SentimentTool.aggregate pol subj lab tagOfText dateOf units = .ok r) := by
  constructor
  · rfl
  · intro hne hfrag
    have hguard : ((SentimentTool.topTopicsOf tagOfText units).any
        (fun tp => !SentimentTool.patInFragment (tp.1.data.map Char.toLower))) = false := by
      rw [← Bool.not_eq_true, List.any_eq_true]
      rintro ⟨x, hx, hpx⟩
      have hall := List.all_eq_true.mp hfrag x hx
      simp [hall] at hpx
    rw [SentimentTool.aggregate, if_neg (by simpa [List.isEmpty_iff] using hne),
      if_neg (by simp [hguard])]
    exact ⟨_, rfl⟩

/-- C3 counterexample: at the empty unit list the aggregator returns an
error (raises), not a zero/empty result. -/
theorem c3_counterexample :
    SentimentTool.aggregate (fun _ => 0) (fun _ => 0) (fun _ => "POSITIVE")
        (fun _ => []) (fun _ => "") [] = .error "KeyError: 'text'" ∧
    (SentimentTool.aggregate (fun _ => 0) (fun _ => 0) (fun _ => "POSITIVE")
        (fun _ => []) (fun _ => "") []).toOption = none :=
  ⟨rfl, rfl⟩

/-- C3 witness: the amended theorem applied to a one-unit list, whose
aggregation succeeds. -/
theorem c3_witness :
    (SentimentTool.aggregate (fun _ => (0 : ℚ)) (fun _ => (0 : ℚ))
        (fun _ => "POSITIVE") (fun _ => []) (fun _ => "d")
        [⟨"hi", 1, "x"⟩]).toOption ≠ none := by
  obtain ⟨r, hr⟩ := (c3_empty_units_raises (fun _ => 0) (fun _ => 0)
    (fun _ => "POSITIVE") (fun _ => []) (fun _ => "d") [⟨"hi", 1, "x"⟩]).2
    (by simp) (by decide)
  rw [hr]
  simp [Except.toOption]

namespace SentimentTool

theorem regexMatchHere_eq_startsList {pat : List Char}
    (hp : pat.all (fun ch => !isRegexMeta ch) = true) :
    ∀ l, regexMatchHere pat l = startsList pat l := by
  induction pat with
  | nil => intro l; cases l <;> rfl
  | cons p ps ih =>
    intro l
    have hp1 : isRegexMeta p = false := by
      have := (List.all_eq_true.mp hp) p (List.mem_cons_self p ps)
      simpa using this
    have hps : ps.all (fun ch => !isRegexMeta ch) = true := by
      rw [List.all_eq_true]
      intro x hx
      exact (List.all_eq_true.mp hp) x (List.mem_cons_of_mem p hx)
    have hdot : (p == '.') = false := by
      rw [isRegexMeta] at hp1
      rcases Bool.or_eq_false_iff.mp hp1 with ⟨h1, -⟩
      rcases Bool.or_eq_false_iff.mp h1 with ⟨h2, -⟩
      rcases Bool.or_eq_false_iff.mp h2 with ⟨h3, -⟩
      rcases Bool.or_eq_false_iff.mp h3 with ⟨h4, -⟩
      rcases Bool.or_eq_false_iff.mp h4 with ⟨h5, -⟩
      rcases Bool.or_eq_false_iff.mp h5 with ⟨h6, -⟩
      rcases Bool.or_eq_false_iff.mp h6 with ⟨h7, -⟩
      rcases Bool.or_eq_false_iff.mp h7 with ⟨h8, -⟩
      rcases Bool.or_eq_false_iff.mp h8 with ⟨h9, -⟩
      rcases Bool.or_eq_false_iff.mp h9 with ⟨h10, -⟩
      rcases Bool.or_eq_false_iff.mp h10 with ⟨h11, -⟩
      rcases Bool.or_eq_false_iff.mp h11 with ⟨h12, -⟩
      rcases Bool.or_eq_false_iff.mp h12 with ⟨h13, -⟩
      exact h13
    cases l with
    | nil => rfl
    | cons c cs =>
      rw [regexMatchHere, startsList, hdot, Bool.false_or, ih hps cs]

theorem regexSearch_eq_subList {pat : List Char}
    (hp : pat.all (fun ch => !isRegexMeta ch) = true) :
    ∀ l, regexSearch pat l = subList pat l := by
  intro l
  induction l with
  | nil => rfl
  | cons c cs ih =>
    rw [regexSearch, subList, regexMatchHere_eq_startsList hp, ih]

end SentimentTool

/-- C7 (amended): the topic-sentiment attribution uses pandas
`str.contains(topic, case=False)`, which compiles the topic as a *regular
expression*, not a literal substring.  For each top topic: if no unit's
text regex-matches the topic then no entry with that key appears in the
map at all, and otherwise the entry's value is the mean lexicon polarity
over exactly the regex-matching units; for a topic free of regex
metacharacters this matching coincides with the claim's case-insensitive
substring rule, but metacharacter topics can match units that do not
contain the phrase as a substring. -/
theorem c7_topic_attribution (pol : String → ℚ) (units : List SentimentTool.SUnit)
    (tops : List (String × ℕ)) (tp : String × ℕ) (h : tp ∈ tops) :
    (units.filter (fun u => SentimentTool.strContains u.text tp.1) = [] →
      ∀ v, (tp.1, v) ∉ SentimentTool.topicSentimentMap pol units tops) ∧
    (units.filter (fun u => SentimentTool.strContains u.text tp.1) ≠ [] →
      (tp.1, ((units.filter (fun u => SentimentTool.strContains u.text tp.1)).map
          (fun u => pol u.text)).sum /
        ((units.filter (fun u => SentimentTool.strContains u.text tp.1)).length : ℚ)) ∈
        SentimentTool.topicSentimentMap pol units tops) ∧
    (∀ pat hay : String,
      (pat.data.map Char.toLower).all (fun ch => !SentimentTool.isRegexMeta ch) = true →
      SentimentTool.strContains hay pat = SentimentTool.substringCI hay pat) := by
  refine ⟨?_, ?_, ?_⟩
  · intro hempty v hmem
    rw [SentimentTool.topicSentimentMap] at hmem
    rcases List.mem_filterMap.mp hmem with ⟨tq, htq, hfq⟩
    by_cases hm : (units.filter (fun u => SentimentTool.strContains u.text tq.1)).isEmpty
    · rw [if_pos hm] at hfq
      exact Option.noConfusion hfq
    · rw [if_neg hm] at hfq
      injection hfq with hp
      have hkey : tq.1 = tp.1 := (Prod.ext_iff.mp hp).1
      rw [hkey] at hm
      exact hm (by rw [hempty]; rfl)
  · intro hne
    rw [SentimentTool.topicSentimentMap]
    exact List.mem_filterMap.mpr
      ⟨tp, h, by rw [if_neg (by simpa [List.isEmpty_iff] using hne)]⟩
  · intro pat hay hp
    rw [SentimentTool.strContains, SentimentTool.substringCI,
      SentimentTool.regexSearch_eq_subList hp]

/-- C7 counterexample: the topic `"U.S."` is compiled as a regex, so it
matches the text `"unsafe stunt"` (`.` is a wildcard) although `"U.S."`
is not a substring of it; the attribution map therefore carries the
polarity of a unit the claim's substring rule excludes. -/
theorem c7_counterexample :
    SentimentTool.topicSentimentMap (fun _ => (2 : ℚ))
      [⟨"unsafe stunt", 0, "d"⟩] [("U.S.", 1)] = [("U.S.", 2)] ∧
    SentimentTool.strContains "unsafe stunt" "U.S." = true ∧
    SentimentTool.substringCI "unsafe stunt" "U.S." = false := by
  refine ⟨?_, by decide, by decide⟩
  have hf : ([⟨"unsafe stunt", 0, "d"⟩] : List SentimentTool.SUnit).filter
      (fun u => SentimentTool.strContains u.text "U.S.") =
      [⟨"unsafe stunt", 0, "d"⟩] := by decide
  rw [SentimentTool.topicSentimentMap, List.filterMap_cons]
  simp only [hf]
  norm_num

/-- C7 witness: with units "Great video" (polarity 1) and "bad audio",
the metacharacter-free top topic "great" matches exactly the first unit
(where regex and substring matching agree) and receives its mean polarity
1, while the topic "zzz" matches no unit and is omitted from the map. -/
theorem c7_witness :
    ("zzz", (0 : ℚ)) ∉ SentimentTool.topicSentimentMap (fun _ => (1 : ℚ))
      [⟨"Great video", 3, "d"⟩, ⟨"bad audio", 0, "d"⟩] [("great", 1), ("zzz", 9)] ∧
    ("great", (1 : ℚ)) ∈ SentimentTool.topicSentimentMap (fun _ => (1 : ℚ))
      [⟨"Great video", 3, "d"⟩, ⟨"bad audio", 0, "d"⟩] [("great", 1), ("zzz", 9)] ∧
    SentimentTool.strContains "Great video" "great" =
      SentimentTool.substringCI "Great video" "great" := by
  have h := c7_topic_attribution (fun _ => (1 : ℚ))
    [⟨"Great video", 3, "d"⟩, ⟨"bad audio", 0, "d"⟩] [("great", 1), ("zzz", 9)]
    ("zzz", 9) (by decide)
  have h2 := c7_topic_attribution (fun _ => (1 : ℚ))
    [⟨"Great video", 3, "d"⟩, ⟨"bad audio", 0, "d"⟩] [("great", 1), ("zzz", 9)]
    ("great", 1) (by decide)
  have hf : ([⟨"Great video", 3, "d"⟩, ⟨"bad audio", 0, "d"⟩] :
      List SentimentTool.SUnit).filter
      (fun u => SentimentTool.strContains u.text "great") =
      [⟨"Great video", 3, "d"⟩] := by decide
  refine ⟨h.1 (by decide) 0, ?_, h2.2.2 "great" "Great video" (by decide)⟩
  have h3 := h2.2.1 (by rw [hf]; simp)
  rw [hf] at h3
  simpa using h3
